import Mathlib

/-!
Verification of the Recurrence & Tiering Engine of the `when-end` repository
(`backend/app/services/event_service.py`), shallowly embedded in Lean.

Datetimes are modelled at second granularity as proleptic-Gregorian calendar
fields `(year, month, day, sod)` where `sod` is the second of the day.  All
event datetimes in the service are timezone-aware UTC instants, so Python's
datetime comparison coincides with comparison of absolute seconds `toSec`
(Python's `toordinal` convention: day 1 = 0001-01-01).  Sub-second fields are
not modelled: every property under scrutiny is stated at second granularity,
and the only operation that would touch them (the Feb-29 substitution, which
rebuilds the datetime from hour/minute/second) discards them anyway.
Python's `datetime` year range (`MINYEAR = 1`, `MAXYEAR = 9999`) and the
`OverflowError`/`ValueError` raise paths of its arithmetic at that boundary
are modelled by the range-checked variant of the occurrence calculator,
which agrees with the total model whenever it does not raise.
-/

/-- A calendar datetime at second granularity (UTC). -/
structure DT where
  year : Nat
  month : Nat
  day : Nat
  /-- second of the day, `0 ≤ sod < 86400` for valid instants -/
  sod : Nat
deriving DecidableEq

/-- Python `calendar.isleap`: `year % 4 == 0 and (year % 100 != 0 or year % 400 == 0)`. -/
def isleap (year : Nat) : Bool :=
  year % 4 == 0 && (year % 100 != 0 || year % 400 == 0)

/-- Number of days of a month in a given year (Gregorian). -/
def daysInMonth (year month : Nat) : Nat :=
  if month = 2 then (if isleap year then 29 else 28)
  else if month = 4 ∨ month = 6 ∨ month = 9 ∨ month = 11 then 30
  else 31

/-- Days before the given month in a non-leap year. -/
def daysBeforeMonthN : Nat → Nat
  | 1 => 0
  | 2 => 31
  | 3 => 59
  | 4 => 90
  | 5 => 120
  | 6 => 151
  | 7 => 181
  | 8 => 212
  | 9 => 243
  | 10 => 273
  | 11 => 304
  | 12 => 334
  | _ => 365

/-- Days in `year` strictly before `month`. -/
def daysBeforeMonth (year month : Nat) : Nat :=
  daysBeforeMonthN month + (if 2 < month ∧ isleap year = true then 1 else 0)

/-- Days strictly before January 1 of `year` (Python `datetime.toordinal` convention). -/
def daysBeforeYear (year : Nat) : Nat :=
  365 * (year - 1) + (year - 1) / 4 - (year - 1) / 100 + (year - 1) / 400

/-- Proleptic-Gregorian ordinal of the date (0001-01-01 has ordinal 1). -/
def toOrdinal (d : DT) : Nat :=
  daysBeforeYear d.year + daysBeforeMonth d.year d.month + d.day

/-- Absolute time in seconds; Python's comparison of aware UTC datetimes
compares these values. -/
def toSec (d : DT) : Nat :=
  86400 * toOrdinal d + d.sod

/-- The fields form a well-formed calendar instant.  This is deliberately
unbounded above in the year: Python's `datetime` additionally enforces
`MINYEAR = 1 ≤ year ≤ MAXYEAR = 9999` (see `DT.PyValid`), and its arithmetic
raises (`OverflowError`/`ValueError`) instead of producing a year past
`MAXYEAR`.  The unbounded calendar is used for the value-level analysis of
the advancing loop; the raise paths at the range boundary are modelled
separately by `calculate_next_occurrence_checked` below. -/
abbrev DT.Valid (d : DT) : Prop :=
  1 ≤ d.year ∧ 1 ≤ d.month ∧ d.month ≤ 12 ∧ 1 ≤ d.day ∧
    d.day ≤ daysInMonth d.year d.month ∧ d.sod < 86400

/-- Python's `datetime.MAXYEAR`. -/
def MAXYEAR : Nat := 9999

/-- A value representable by Python's `datetime` type: a well-formed
calendar instant within `MINYEAR..MAXYEAR`. -/
abbrev DT.PyValid (d : DT) : Prop :=
  d.Valid ∧ d.year ≤ MAXYEAR

/-- `RepeatInterval` enum from `app/models/event.py`. -/
inductive RepeatInterval where
  | NONE
  | DAY
  | WEEK
  | MONTH
  | YEAR
deriving DecidableEq

/-- `ColorBucket` literal type from `app/schemas/event.py`. -/
inductive ColorBucket where
  | RED
  | ORANGE
  | YELLOW
  | GREEN
  | CYAN
  | BLUE
  | PURPLE
deriving DecidableEq

/-- `EventService.get_color_bucket` (event_service.py lines 105-141). -/
def get_color_bucket (remaining_seconds : Int) : Option ColorBucket :=
  if remaining_seconds < 0 then none
  else if remaining_seconds < 86400 then some ColorBucket.RED
  else if remaining_seconds < 7 * 86400 then some ColorBucket.ORANGE
  else if remaining_seconds < 30 * 86400 then some ColorBucket.YELLOW
  else if remaining_seconds < 90 * 86400 then some ColorBucket.GREEN
  else if remaining_seconds < 365 * 86400 then some ColorBucket.CYAN
  else if remaining_seconds < 3 * 365 * 86400 then some ColorBucket.BLUE
  else some ColorBucket.PURPLE

/-- Python `timedelta(days=1)` on a UTC datetime: the next calendar day,
same time of day. -/
def addDay (d : DT) : DT :=
  if d.day < daysInMonth d.year d.month then ⟨d.year, d.month, d.day + 1, d.sod⟩
  else if d.month < 12 then ⟨d.year, d.month + 1, 1, d.sod⟩
  else ⟨d.year + 1, 1, 1, d.sod⟩

/-- Python `timedelta(weeks=1)`: exactly seven days. -/
def addWeek (d : DT) : DT :=
  addDay (addDay (addDay (addDay (addDay (addDay (addDay d))))))

/-- `dateutil.relativedelta(months=1)`: advance the month by one (rolling the
year over after December) and clamp the day to the target month's length. -/
def addMonth (d : DT) : DT :=
  if d.month = 12 then
    ⟨d.year + 1, 1, min d.day (daysInMonth (d.year + 1) 1), d.sod⟩
  else
    ⟨d.year, d.month + 1, min d.day (daysInMonth d.year (d.month + 1)), d.sod⟩

/-- `dateutil.relativedelta(years=1)`: advance the year by one and clamp the
day to the target month's length (only Feb 29 can clamp, to Feb 28). -/
def addYear (d : DT) : DT :=
  ⟨d.year + 1, d.month, min d.day (daysInMonth (d.year + 1) d.month), d.sod⟩

/-- One iteration of the YEAR branch of
`EventService.calculate_next_occurrence` (event_service.py lines 57-70).
`anchor_is_feb29` is the loop-invariant test
`event_date.month == 2 and event_date.day == 29`; when it holds, the next
year is taken verbatim via `replace(year=...)` if it is a leap year and is
otherwise substituted according to `settings.LEAP_POLICY` ("mar01" yields
March 1, anything else February 28), preserving the time of day. -/
def yearStep (LEAP_POLICY : String) (anchor_is_feb29 : Bool) (next_occ : DT) : DT :=
  if anchor_is_feb29 then
    if isleap (next_occ.year + 1) then
      { next_occ with year := next_occ.year + 1 }
    else if LEAP_POLICY = "mar01" then
      ⟨next_occ.year + 1, 3, 1, next_occ.sod⟩
    else
      ⟨next_occ.year + 1, 2, 28, next_occ.sod⟩
  else
    addYear next_occ

/-- The advancing step used by each recurring branch of
`calculate_next_occurrence`, as a function of the rule. -/
def ruleStep (LEAP_POLICY : String) (event_date : DT) : RepeatInterval → DT → DT
  | RepeatInterval.NONE => id
  | RepeatInterval.DAY => addDay
  | RepeatInterval.WEEK => addWeek
  | RepeatInterval.MONTH => addMonth
  | RepeatInterval.YEAR =>
      yearStep LEAP_POLICY (event_date.month == 2 && event_date.day == 29)

/-- The `while next_occ <= now: next_occ = step(next_occ)` loop of
`calculate_next_occurrence`, with an explicit fuel bound on the number of
iterations.  Every step function strictly increases `toSec` by at least one
second on valid datetimes (`ruleStep_spec`), so fuel `now + 1 - toSec start`
is never exhausted before the loop condition fails (`advanceLoop_spec`); with
that much fuel this function is exactly the source's unbounded loop. -/
def advanceLoop (step : DT → DT) (now : Nat) : Nat → DT → DT
  | 0, next_occ => next_occ
  | fuel + 1, next_occ =>
      if toSec next_occ ≤ now then advanceLoop step now fuel (step next_occ)
      else next_occ

/-- `EventService.calculate_next_occurrence` (event_service.py lines 16-73).
The source takes only `(event_date, repeat_interval)` and reads the wall
clock internally (`now = datetime.now(timezone.utc)`, line 30); `clock_now`
models the value produced by that internal read at invocation time. -/
def calculate_next_occurrence (LEAP_POLICY : String) (event_date : DT)
    (repeat_interval : RepeatInterval) (clock_now : DT) : Option DT :=
  if repeat_interval = RepeatInterval.NONE then none
  else if toSec clock_now < toSec event_date then some event_date
  else if repeat_interval = RepeatInterval.DAY then
    some (advanceLoop addDay (toSec clock_now)
      (toSec clock_now + 1 - toSec event_date) event_date)
  else if repeat_interval = RepeatInterval.WEEK then
    some (advanceLoop addWeek (toSec clock_now)
      (toSec clock_now + 1 - toSec event_date) event_date)
  else if repeat_interval = RepeatInterval.MONTH then
    some (advanceLoop addMonth (toSec clock_now)
      (toSec clock_now + 1 - toSec event_date) event_date)
  else if repeat_interval = RepeatInterval.YEAR then
    some (advanceLoop
      (yearStep LEAP_POLICY (event_date.month == 2 && event_date.day == 29))
      (toSec clock_now) (toSec clock_now + 1 - toSec event_date) event_date)
  else none

/-- One step of the advancing loop with Python's `datetime` range check.
Every step operation in the source is partial at the range boundary: it
produces its value exactly when the stepped year is still `≤ MAXYEAR`, and
raises otherwise (`timedelta` addition raises `OverflowError`; dateutil's
`relativedelta` addition, `replace(year=...)` and the `datetime(...)`
constructor raise `ValueError`) — the month/day fields a step builds are
always valid, so the year bound is the only failure condition.  `errname` is
the exception the branch's operation raises. -/
def stepChecked (errname : String) (step : DT → DT) (d : DT) :
    Except String DT :=
  if (step d).year ≤ MAXYEAR then Except.ok (step d) else Except.error errname

/-- The `while next_occ <= now` loop with the range-raise paths kept:
`Except.error` models the loop terminating by an uncaught exception. -/
def advanceLoopChecked (errname : String) (step : DT → DT) (now : Nat) :
    Nat → DT → Except String DT
  | 0, next_occ => Except.ok next_occ
  | fuel + 1, next_occ =>
      if toSec next_occ ≤ now then
        match stepChecked errname step next_occ with
        | Except.ok d => advanceLoopChecked errname step now fuel d
        | Except.error e => Except.error e
      else Except.ok next_occ

/-- `EventService.calculate_next_occurrence` with Python's `datetime` range
semantics kept: `Except.ok` is a normal return (`none` for the NONE rule),
`Except.error` an uncaught `OverflowError` (DAY/WEEK `timedelta` additions)
or `ValueError` (MONTH/YEAR `relativedelta`, `replace`, constructor).
`calculate_next_occurrence` is the total completion of this function: the
two agree whenever this one does not raise. -/
def calculate_next_occurrence_checked (LEAP_POLICY : String) (event_date : DT)
    (repeat_interval : RepeatInterval) (clock_now : DT) :
    Except String (Option DT) :=
  if repeat_interval = RepeatInterval.NONE then Except.ok none
  else if toSec clock_now < toSec event_date then Except.ok (some event_date)
  else if repeat_interval = RepeatInterval.DAY then
    Except.map some (advanceLoopChecked "OverflowError" addDay (toSec clock_now)
      (toSec clock_now + 1 - toSec event_date) event_date)
  else if repeat_interval = RepeatInterval.WEEK then
    Except.map some (advanceLoopChecked "OverflowError" addWeek (toSec clock_now)
      (toSec clock_now + 1 - toSec event_date) event_date)
  else if repeat_interval = RepeatInterval.MONTH then
    Except.map some (advanceLoopChecked "ValueError" addMonth (toSec clock_now)
      (toSec clock_now + 1 - toSec event_date) event_date)
  else if repeat_interval = RepeatInterval.YEAR then
    Except.map some (advanceLoopChecked "ValueError"
      (yearStep LEAP_POLICY (event_date.month == 2 && event_date.day == 29))
      (toSec clock_now) (toSec clock_now + 1 - toSec event_date) event_date)
  else Except.ok none

lemma isleap_iff (y : Nat) :
    isleap y = true ↔ (y % 4 = 0 ∧ (y % 100 ≠ 0 ∨ y % 400 = 0)) := by
  simp [isleap]

set_option maxHeartbeats 2000000 in
lemma daysBeforeYear_succ (y : Nat) (hy : 1 ≤ y) :
    daysBeforeYear (y + 1) =
      daysBeforeYear y + (if isleap y = true then 366 else 365) := by
  by_cases h : isleap y = true
  · have h2 := (isleap_iff y).mp h
    rw [if_pos h]
    unfold daysBeforeYear
    omega
  · have h2 : ¬(y % 4 = 0 ∧ (y % 100 ≠ 0 ∨ y % 400 = 0)) :=
      fun hc => h ((isleap_iff y).mpr hc)
    rw [if_neg h]
    unfold daysBeforeYear
    have h3 : y % 4 ≠ 0 ∨ (y % 100 = 0 ∧ y % 400 ≠ 0) := by omega
    rcases h3 with h3 | ⟨h3, h4⟩ <;> omega

lemma daysInMonth_pos (y m : Nat) : 1 ≤ daysInMonth y m := by
  unfold daysInMonth
  split_ifs <;> omega

lemma daysInMonth_le_leap (y y' m : Nat) (h : isleap y' = true) :
    daysInMonth y m ≤ daysInMonth y' m := by
  unfold daysInMonth
  split_ifs <;> simp_all

lemma daysBeforeMonth_succ (y m : Nat) (h1 : 1 ≤ m) (h2 : m ≤ 11) :
    daysBeforeMonth y (m + 1) = daysBeforeMonth y m + daysInMonth y m := by
  interval_cases m <;> by_cases hl : isleap y = true <;>
    simp_all [daysBeforeMonth, daysBeforeMonthN, daysInMonth]

lemma dayOfYear_le (y m day : Nat) (hm1 : 1 ≤ m) (hm2 : m ≤ 12)
    (hd2 : day ≤ daysInMonth y m) :
    daysBeforeMonth y m + day ≤ 365 + (if isleap y = true then 1 else 0) := by
  interval_cases m <;> by_cases hl : isleap y = true <;>
    simp_all [daysBeforeMonth, daysBeforeMonthN, daysInMonth] <;> omega

lemma daysBeforeMonth_one (y : Nat) : daysBeforeMonth y 1 = 0 := by
  simp [daysBeforeMonth, daysBeforeMonthN]

lemma daysBeforeMonth_twelve (y : Nat) :
    daysBeforeMonth y 12 = 334 + (if isleap y = true then 1 else 0) := by
  by_cases hl : isleap y = true <;>
    simp [daysBeforeMonth, daysBeforeMonthN, hl]

lemma daysInMonth_twelve (y : Nat) : daysInMonth y 12 = 31 := by
  simp [daysInMonth]

lemma addDay_spec (d : DT) (hv : d.Valid) :
    (addDay d).Valid ∧ toSec (addDay d) = toSec d + 86400 := by
  obtain ⟨y, m, day, sod⟩ := d
  obtain ⟨hy, hm1, hm2, hd1, hd2, hs⟩ := hv
  dsimp only at hd2 hm1 hm2 hd1 hy hs
  unfold addDay
  dsimp only
  split_ifs with h1 h2
  · unfold toSec toOrdinal DT.Valid
    dsimp only
    omega
  · have hm11 : m ≤ 11 := by omega
    have hsucc := daysBeforeMonth_succ y m hm1 hm11
    have hpos := daysInMonth_pos y (m + 1)
    unfold toSec toOrdinal DT.Valid
    dsimp only
    omega
  · have hm12 : m = 12 := by omega
    subst hm12
    have hd31 : day = 31 := by
      have := daysInMonth_twelve y
      omega
    subst hd31
    have hby := daysBeforeYear_succ y hy
    have h12 := daysBeforeMonth_twelve y
    have h1' := daysBeforeMonth_one (y + 1)
    have hp1 := daysInMonth_pos (y + 1) 1
    unfold toSec toOrdinal DT.Valid
    dsimp only
    by_cases hl : isleap y = true <;>
      simp only [hl, Bool.false_eq_true, if_true, if_false] at hby h12 <;> omega

lemma addWeek_spec (d : DT) (hv : d.Valid) :
    (addWeek d).Valid ∧ toSec (addWeek d) = toSec d + 7 * 86400 := by
  obtain ⟨v1, e1⟩ := addDay_spec d hv
  obtain ⟨v2, e2⟩ := addDay_spec _ v1
  obtain ⟨v3, e3⟩ := addDay_spec _ v2
  obtain ⟨v4, e4⟩ := addDay_spec _ v3
  obtain ⟨v5, e5⟩ := addDay_spec _ v4
  obtain ⟨v6, e6⟩ := addDay_spec _ v5
  obtain ⟨v7, e7⟩ := addDay_spec _ v6
  exact ⟨v7, by unfold addWeek; omega⟩

lemma addMonth_spec (d : DT) (hv : d.Valid) :
    (addMonth d).Valid ∧ toSec d < toSec (addMonth d) := by
  obtain ⟨y, m, day, sod⟩ := d
  obtain ⟨hy, hm1, hm2, hd1, hd2, hs⟩ := hv
  dsimp only at hd2 hm1 hm2 hd1 hy hs
  unfold addMonth
  dsimp only
  by_cases h12 : m = 12
  · subst h12
    rw [if_pos rfl]
    have hby := daysBeforeYear_succ y hy
    have h12' := daysBeforeMonth_twelve y
    have h1' := daysBeforeMonth_one (y + 1)
    have hp1 := daysInMonth_pos (y + 1) 1
    have h31 := daysInMonth_twelve y
    unfold toSec toOrdinal DT.Valid
    dsimp only
    by_cases hl : isleap y = true <;>
      simp only [hl, Bool.false_eq_true, if_true, if_false] at hby h12' <;> omega
  · simp only [if_neg h12]
    have hm11 : m ≤ 11 := by omega
    have hsucc := daysBeforeMonth_succ y m hm1 hm11
    have hpos := daysInMonth_pos y (m + 1)
    unfold toSec toOrdinal DT.Valid
    dsimp only
    omega

lemma addYear_spec (d : DT) (hv : d.Valid) :
    (addYear d).Valid ∧ toSec d < toSec (addYear d) := by
  obtain ⟨y, m, day, sod⟩ := d
  obtain ⟨hy, hm1, hm2, hd1, hd2, hs⟩ := hv
  dsimp only at hd2 hm1 hm2 hd1 hy hs
  have hby := daysBeforeYear_succ y hy
  have hdoy := dayOfYear_le y m day hm1 hm2 hd2
  have hpos := daysInMonth_pos (y + 1) m
  unfold addYear toSec toOrdinal DT.Valid
  dsimp only
  by_cases hl : isleap y = true <;>
    simp only [hl, Bool.false_eq_true, if_true, if_false] at hby hdoy <;> omega

lemma yearStep_true_spec (p : String) (d : DT) (hv : d.Valid) :
    (yearStep p true d).Valid ∧ toSec d < toSec (yearStep p true d) := by
  obtain ⟨y, m, day, sod⟩ := d
  obtain ⟨hy, hm1, hm2, hd1, hd2, hs⟩ := hv
  dsimp only at hd2 hm1 hm2 hd1 hy hs
  have hby := daysBeforeYear_succ y hy
  have hdoy := dayOfYear_le y m day hm1 hm2 hd2
  unfold yearStep
  simp only [if_true]
  by_cases hl2 : isleap (y + 1) = true
  · simp only [hl2, if_true]
    have hle := daysInMonth_le_leap y (y + 1) m hl2
    unfold toSec toOrdinal DT.Valid
    dsimp only
    by_cases hl : isleap y = true <;>
      simp only [hl, Bool.false_eq_true, if_true, if_false] at hby hdoy <;> omega
  · simp only [hl2, Bool.false_eq_true, if_false]
    by_cases hp : p = "mar01" <;>
      simp only [hp, if_pos, if_neg, if_true, if_false] <;>
    · have hdim : daysInMonth (y + 1) 2 = 28 := by
        unfold daysInMonth
        simp [hl2]
      have hdim3 : daysInMonth (y + 1) 3 = 31 := by
        unfold daysInMonth
        norm_num
      have hb3 : daysBeforeMonth (y + 1) 3 = 59 := by
        unfold daysBeforeMonth daysBeforeMonthN
        simp [hl2]
      have hb2 : daysBeforeMonth (y + 1) 2 = 31 := by
        unfold daysBeforeMonth daysBeforeMonthN
        norm_num
      unfold toSec toOrdinal DT.Valid
      dsimp only
      by_cases hl : isleap y = true <;>
        simp only [hl, Bool.false_eq_true, if_true, if_false] at hby hdoy <;> omega

lemma yearStep_spec (p : String) (b : Bool) (d : DT) (hv : d.Valid) :
    (yearStep p b d).Valid ∧ toSec d < toSec (yearStep p b d) := by
  cases b
  · have h : yearStep p false d = addYear d := by
      unfold yearStep
      simp
    rw [h]
    exact addYear_spec d hv
  · exact yearStep_true_spec p d hv

lemma ruleStep_spec (p : String) (a : DT) (rule : RepeatInterval)
    (hr : rule ≠ RepeatInterval.NONE) (d : DT) (hv : d.Valid) :
    (ruleStep p a rule d).Valid ∧ toSec d < toSec (ruleStep p a rule d) := by
  cases rule
  · exact absurd rfl hr
  · have h := addDay_spec d hv
    simp only [ruleStep]
    exact ⟨h.1, by have := h.2; omega⟩
  · have h := addWeek_spec d hv
    simp only [ruleStep]
    exact ⟨h.1, by have := h.2; omega⟩
  · exact addMonth_spec d hv
  · exact yearStep_spec p _ d hv

lemma advanceLoop_spec (step : DT → DT) (now : Nat)
    (hstep : ∀ d, d.Valid → (step d).Valid ∧ toSec d < toSec (step d)) :
    ∀ fuel cur, cur.Valid → now < toSec cur + fuel →
      ∃ k, k ≤ fuel ∧ advanceLoop step now fuel cur = step^[k] cur ∧
        (step^[k] cur).Valid ∧ now < toSec (step^[k] cur) ∧
        ∀ j < k, toSec (step^[j] cur) ≤ now := by
  intro fuel
  induction fuel with
  | zero =>
    intro cur hc hlt
    refine ⟨0, le_refl 0, rfl, hc, ?_, ?_⟩
    · simpa using hlt
    · intro j hj
      omega
  | succ n ih =>
    intro cur hc hlt
    unfold advanceLoop
    by_cases h : toSec cur ≤ now
    · rw [if_pos h]
      obtain ⟨hv', hlt'⟩ := hstep cur hc
      obtain ⟨k, hk, he, hkv, hgt, hall⟩ := ih (step cur) hv' (by omega)
      refine ⟨k + 1, by omega, ?_, ?_, ?_, ?_⟩
      · rw [Function.iterate_succ_apply]
        exact he
      · rw [Function.iterate_succ_apply]
        exact hkv
      · rw [Function.iterate_succ_apply]
        exact hgt
      · intro j hj
        cases j with
        | zero => simpa using h
        | succ j' =>
          rw [Function.iterate_succ_apply]
          exact hall j' (by omega)
    · rw [if_neg h]
      refine ⟨0, by omega, rfl, hc, by simpa using (by omega : now < toSec cur), ?_⟩
      intro j hj
      omega

/-- The recurring branches of `calculate_next_occurrence` return exactly the
result of running the source's `while next_occ <= now` loop: the first
iterate of the rule's step that strictly exceeds `now`, reached after at most
`toSec now + 1 - toSec a` strictly increasing steps. -/
lemma calc_loop_char (p : String) (a : DT) (rule : RepeatInterval) (now : DT)
    (hv : a.Valid) (hr : rule ≠ RepeatInterval.NONE)
    (hle : toSec a ≤ toSec now) :
    ∃ k, k ≤ toSec now + 1 - toSec a ∧
      calculate_next_occurrence p a rule now = some ((ruleStep p a rule)^[k] a) ∧
      ((ruleStep p a rule)^[k] a).Valid ∧
      toSec now < toSec ((ruleStep p a rule)^[k] a) ∧
      ∀ j < k, toSec ((ruleStep p a rule)^[j] a) ≤ toSec now := by
  have hstep := ruleStep_spec p a rule hr
  obtain ⟨k, hk, he, hv', hgt, hall⟩ :=
    advanceLoop_spec (ruleStep p a rule) (toSec now) hstep
      (toSec now + 1 - toSec a) a hv (by omega)
  refine ⟨k, hk, ?_, hv', hgt, hall⟩
  have hnl : ¬ toSec now < toSec a := by omega
  cases rule
  · exact absurd rfl hr
  · simp only [ruleStep] at he ⊢
    simp only [calculate_next_occurrence, if_neg hnl, reduceCtorEq, if_false,
      reduceIte]
    exact congrArg some he
  · simp only [ruleStep] at he ⊢
    simp only [calculate_next_occurrence, if_neg hnl, reduceCtorEq, if_false,
      reduceIte]
    exact congrArg some he
  · simp only [ruleStep] at he ⊢
    simp only [calculate_next_occurrence, if_neg hnl, reduceCtorEq, if_false,
      reduceIte]
    exact congrArg some he
  · simp only [ruleStep] at he ⊢
    simp only [calculate_next_occurrence, if_neg hnl, reduceCtorEq, if_false,
      reduceIte]
    exact congrArg some he

lemma advanceLoopChecked_ok (e : String) (step : DT → DT) (now : Nat) :
    ∀ fuel cur r, advanceLoopChecked e step now fuel cur = Except.ok r →
      advanceLoop step now fuel cur = r := by
  intro fuel
  induction fuel with
  | zero =>
    intro cur r h
    unfold advanceLoopChecked at h
    simp only [Except.ok.injEq] at h
    unfold advanceLoop
    exact h
  | succ n ih =>
    intro cur r h
    unfold advanceLoopChecked stepChecked at h
    unfold advanceLoop
    by_cases hc : toSec cur ≤ now
    · rw [if_pos hc] at h ⊢
      by_cases hy : (step cur).year ≤ MAXYEAR
      · rw [if_pos hy] at h
        exact ih (step cur) r h
      · rw [if_neg hy] at h
        simp at h
    · rw [if_neg hc] at h ⊢
      simp only [Except.ok.injEq] at h
      exact h

lemma advanceLoopChecked_error (e : String) (step : DT → DT) (now : Nat) :
    ∀ fuel cur e2, advanceLoopChecked e step now fuel cur = Except.error e2 →
      e2 = e ∧ ∃ j, toSec (step^[j] cur) ≤ now ∧
        MAXYEAR < (step^[j + 1] cur).year := by
  intro fuel
  induction fuel with
  | zero =>
    intro cur e2 h
    unfold advanceLoopChecked at h
    simp at h
  | succ n ih =>
    intro cur e2 h
    unfold advanceLoopChecked stepChecked at h
    by_cases hc : toSec cur ≤ now
    · rw [if_pos hc] at h
      by_cases hy : (step cur).year ≤ MAXYEAR
      · rw [if_pos hy] at h
        obtain ⟨he, j, hj1, hj2⟩ := ih (step cur) e2 h
        refine ⟨he, j + 1, ?_, ?_⟩
        · rw [Function.iterate_succ_apply]
          exact hj1
        · rw [Function.iterate_succ_apply]
          exact hj2
      · rw [if_neg hy] at h
        simp only [Except.error.injEq] at h
        refine ⟨h.symm, 0, by simpa using hc, ?_⟩
        simpa using (by omega : MAXYEAR < (step cur).year)
    · rw [if_neg hc] at h
      simp at h

/-- For every recurring rule and an anchor not after the clock reading, both
models dispatch to their advancing loop over the rule's step, with the
branch's exception name. -/
lemma checked_branch (p : String) (a : DT) (rule : RepeatInterval) (now : DT)
    (hr : rule ≠ RepeatInterval.NONE) (hnl : ¬ toSec now < toSec a) :
    calculate_next_occurrence_checked p a rule now =
      Except.map some (advanceLoopChecked
        (if rule = RepeatInterval.MONTH ∨ rule = RepeatInterval.YEAR then
          "ValueError" else "OverflowError")
        (ruleStep p a rule) (toSec now) (toSec now + 1 - toSec a) a) ∧
    calculate_next_occurrence p a rule now =
      some (advanceLoop (ruleStep p a rule) (toSec now)
        (toSec now + 1 - toSec a) a) := by
  cases rule
  · exact absurd rfl hr
  all_goals
    exact ⟨by
      unfold calculate_next_occurrence_checked
      rw [if_neg hr, if_neg hnl]
      simp [ruleStep], by
      unfold calculate_next_occurrence
      rw [if_neg hr, if_neg hnl]
      simp [ruleStep]⟩

/-- `EventService.calculate_remaining_seconds` (event_service.py lines
90-103): `int((effective_due_at - server_now).total_seconds())`, exact at
second granularity. -/
def calculate_remaining_seconds (effective_due_at server_now : DT) : Int :=
  (toSec effective_due_at : Int) - (toSec server_now : Int)

/-- The fields of an event relevant to enrichment (`app/models/event.py`). -/
structure Event where
  event_date : DT
  repeat_interval : RepeatInterval
deriving DecidableEq

/-- The computed fields of the dict returned by `EventService.enrich_event`
(event_service.py lines 202-218; identity/attachment passthrough fields are
not modelled). -/
structure Enriched where
  event_date : DT
  repeat_interval : RepeatInterval
  next_occurrence : Option DT
  effective_due_at : DT
  remaining_seconds : Int
  color_bucket : Option ColorBucket
  is_overdue : Bool
deriving DecidableEq

/-- `EventService.enrich_event` (event_service.py lines 143-218).
`server_now` is the `server_now` argument; `clock_now` models the separate
internal wall-clock read performed by `calculate_next_occurrence`.  Line 172
(`next_occurrence if next_occurrence else event.event_date`) falls back on
the anchor exactly when `next_occurrence` is `None`, since a `datetime` is
always truthy. -/
def enrich_event (LEAP_POLICY : String) (event : Event) (server_now : DT)
    (clock_now : DT) : Enriched :=
  { event_date := event.event_date
    repeat_interval := event.repeat_interval
    next_occurrence :=
      if event.repeat_interval ≠ RepeatInterval.NONE then
        calculate_next_occurrence LEAP_POLICY event.event_date
          event.repeat_interval clock_now
      else none
    effective_due_at :=
      match
        (if event.repeat_interval ≠ RepeatInterval.NONE then
          calculate_next_occurrence LEAP_POLICY event.event_date
            event.repeat_interval clock_now
        else none) with
      | some d => d
      | none => event.event_date
    remaining_seconds :=
      calculate_remaining_seconds
        (match
          (if event.repeat_interval ≠ RepeatInterval.NONE then
            calculate_next_occurrence LEAP_POLICY event.event_date
              event.repeat_interval clock_now
          else none) with
        | some d => d
        | none => event.event_date)
        server_now
    color_bucket :=
      get_color_bucket
        (calculate_remaining_seconds
          (match
            (if event.repeat_interval ≠ RepeatInterval.NONE then
              calculate_next_occurrence LEAP_POLICY event.event_date
                event.repeat_interval clock_now
            else none) with
          | some d => d
          | none => event.event_date)
          server_now)
    is_overdue :=
      decide
        (calculate_remaining_seconds
          (match
            (if event.repeat_interval ≠ RepeatInterval.NONE then
              calculate_next_occurrence LEAP_POLICY event.event_date
                event.repeat_interval clock_now
            else none) with
          | some d => d
          | none => event.event_date)
          server_now < 0) }

/-- `EventService.sort_events_by_remaining_time` (event_service.py lines
220-231): Python's `sorted` with key `remaining_seconds`.  `sorted` is
specified as a stable sort, and a stable sort's output is uniquely
determined by the key order and the input order, so the (stable) standard
library merge sort is an exact model. -/
def sort_events_by_remaining_time (enriched_events : List Enriched) :
    List Enriched :=
  enriched_events.mergeSort
    (fun a b => decide (a.remaining_seconds ≤ b.remaining_seconds))

/-- `EventService.filter_overdue` (event_service.py lines 233-246). -/
def filter_overdue (enriched_events : List Enriched) :
    List Enriched × List Enriched :=
  (enriched_events.filter (fun e => !e.is_overdue),
   enriched_events.filter (fun e => e.is_overdue))

lemma gcb_none_iff (r : Int) : get_color_bucket r = none ↔ r < 0 := by
  unfold get_color_bucket
  split_ifs <;> simp_all

lemma feb29_anchor_leap (a : DT) (hv : a.Valid) (hm : a.month = 2)
    (hd : a.day = 29) : isleap a.year = true := by
  have hd2 := hv.2.2.2.2.1
  rw [hm, hd] at hd2
  by_cases hc : isleap a.year = true
  · exact hc
  · simp [daysInMonth, hc] at hd2

lemma isleap_succ_false (y : Nat) (h : isleap y = true) :
    ¬ isleap (y + 1) = true := by
  intro h2
  rw [isleap_iff] at h h2
  omega

/-- Closed form of the YEAR loop body for a Feb-29 anchor: the very first
step substitutes the policy date (the year after a leap year is never a leap
year), and every later step keeps the substituted month/day while adding one
year — a later leap year does not restore Feb 29. -/
lemma yearStep_feb29_iterate (p : String) (a : DT) (hv : a.Valid)
    (hm : a.month = 2) (hd : a.day = 29) :
    ∀ k, 1 ≤ k →
      (yearStep p true)^[k] a =
        ⟨a.year + k, if p = "mar01" then 3 else 2,
          if p = "mar01" then 1 else 28, a.sod⟩ := by
  have hleap := feb29_anchor_leap a hv hm hd
  have hnl : ¬ isleap (a.year + 1) = true := isleap_succ_false a.year hleap
  intro k
  induction k with
  | zero => intro h; exact absurd h (by decide)
  | succ n ih =>
    intro _
    by_cases hn : n = 0
    · subst hn
      rw [Function.iterate_one]
      unfold yearStep
      rw [if_pos rfl, if_neg hnl]
      by_cases hp : p = "mar01" <;> simp [hp]
    · have hstep := ih (by omega)
      rw [Function.iterate_succ_apply', hstep]
      unfold yearStep
      rw [if_pos rfl]
      by_cases hl2 : isleap (a.year + n + 1) = true
      · rw [if_pos hl2]
        simp [DT.mk.injEq]
        omega
      · rw [if_neg hl2]
        by_cases hp : p = "mar01" <;> simp [hp, DT.mk.injEq] <;> omega

lemma length_filter_bool (l : List Enriched) (f : Enriched → Bool) :
    (l.filter (fun e => !f e)).length + (l.filter f).length = l.length := by
  induction l with
  | nil => rfl
  | cons a t ih =>
    by_cases h : f a = true <;> simp [List.filter_cons, h] <;> omega

/-- The claim C1: `get_color_bucket` realises exactly the spec's half-open
tier table with `D = 86400`: `none` iff negative, RED on `[0, D)`, ORANGE on
`[D, 7D)`, YELLOW on `[7D, 30D)`, GREEN on `[30D, 90D)`, CYAN on `[90D, 365D)`,
BLUE on `[365D, 3*365D)`, PURPLE on `[3*365D, ∞)`; in particular every exact
boundary value lands in the higher tier. -/
theorem C1_tier_table (r : Int) :
    (get_color_bucket r = none ↔ r < 0) ∧
    (get_color_bucket r = some ColorBucket.RED ↔ 0 ≤ r ∧ r < 86400) ∧
    (get_color_bucket r = some ColorBucket.ORANGE ↔ 86400 ≤ r ∧ r < 7 * 86400) ∧
    (get_color_bucket r = some ColorBucket.YELLOW ↔ 7 * 86400 ≤ r ∧ r < 30 * 86400) ∧
    (get_color_bucket r = some ColorBucket.GREEN ↔ 30 * 86400 ≤ r ∧ r < 90 * 86400) ∧
    (get_color_bucket r = some ColorBucket.CYAN ↔ 90 * 86400 ≤ r ∧ r < 365 * 86400) ∧
    (get_color_bucket r = some ColorBucket.BLUE ↔ 365 * 86400 ≤ r ∧ r < 3 * 365 * 86400) ∧
    (get_color_bucket r = some ColorBucket.PURPLE ↔ 3 * 365 * 86400 ≤ r) := by
  unfold get_color_bucket
  split_ifs <;> simp_all <;> omega

/-- The claim C2 fails on the code: for the anchor 2025-01-31 12:00:00 under
MONTHLY with the internal clock reading 2025-03-01 00:00:00, the returned
occurrence is 2025-03-28 12:00:00 — March has 31 days, at least the anchor's
day-of-month 31, yet the returned day is 28, because the clamp to February 28
persists into March. -/
theorem C2_counterexample :
    calculate_next_occurrence "feb28" ⟨2025, 1, 31, 43200⟩
        RepeatInterval.MONTH ⟨2025, 3, 1, 0⟩ = some ⟨2025, 3, 28, 43200⟩ ∧
    (⟨2025, 1, 31, 43200⟩ : DT).day = 31 ∧
    daysInMonth 2025 3 = 31 ∧
    (28 : Nat) ≠ 31 := by
  refine ⟨by decide, rfl, by decide, by decide⟩

/-- The claim C2, amended: each iteration step of the MONTHLY branch adds
exactly one calendar month, preserving the time of day, with the *previous
iterate's* day-of-month preserved whenever the target month has enough days
and clamped to the target month's last day otherwise; the clamp persists —
the day-of-month never increases across iterations — so an anchor on
January 31 stepped past February yields the 28th, not the 31st, in a later
31-day month. -/
theorem C2_month_step (d : DT) :
    ((addMonth d).year * 12 + (addMonth d).month = d.year * 12 + d.month + 1) ∧
    (addMonth d).sod = d.sod ∧
    (d.day ≤ daysInMonth (addMonth d).year (addMonth d).month →
      (addMonth d).day = d.day) ∧
    (daysInMonth (addMonth d).year (addMonth d).month < d.day →
      (addMonth d).day = daysInMonth (addMonth d).year (addMonth d).month) ∧
    (addMonth d).day ≤ d.day ∧
    ∀ k, (addMonth^[k + 1] d).day ≤ (addMonth^[k] d).day := by
  obtain ⟨y, m, day, sod⟩ := d
  refine ⟨?_, ?_, ?_, ?_, ?_, ?_⟩
  · unfold addMonth
    dsimp only
    split_ifs with h <;> dsimp only <;> omega
  · unfold addMonth
    split_ifs <;> rfl
  · intro h
    unfold addMonth at h ⊢
    dsimp only
    split_ifs at h ⊢ <;> dsimp only at h ⊢ <;> omega
  · intro h
    unfold addMonth at h ⊢
    dsimp only
    split_ifs at h ⊢ <;> dsimp only at h ⊢ <;> omega
  · unfold addMonth
    dsimp only
    split_ifs <;> dsimp only <;> omega
  · intro k
    rw [Function.iterate_succ_apply']
    generalize (addMonth^[k] ⟨y, m, day, sod⟩ : DT) = e
    obtain ⟨y', m', day', sod'⟩ := e
    unfold addMonth
    dsimp only
    split_ifs <;> dsimp only <;> omega

/-- Witness for `C2_month_step` at the anchor 2025-01-31 12:00:00 advanced
into February: the target month is too short, so the day clamps to its last
day, 28. -/
theorem C2_month_step_witness :
    daysInMonth (addMonth ⟨2025, 1, 31, 43200⟩).year
        (addMonth ⟨2025, 1, 31, 43200⟩).month < 31 ∧
    (addMonth ⟨2025, 1, 31, 43200⟩).day =
      daysInMonth (addMonth ⟨2025, 1, 31, 43200⟩).year
        (addMonth ⟨2025, 1, 31, 43200⟩).month :=
  ⟨by decide, (C2_month_step ⟨2025, 1, 31, 43200⟩).2.2.2.1 (by decide)⟩

/-- The claim C3 fails on the code: `calculate_next_occurrence` takes no
`now` parameter — it reads the wall clock internally (line 30), modelled here
by `clock_now` — so two invocations with identical anchor and rule executed
at different times can return different results. -/
theorem C3_counterexample :
    calculate_next_occurrence "feb28" ⟨2025, 1, 1, 43200⟩
        RepeatInterval.DAY ⟨2025, 1, 2, 0⟩ ≠
      calculate_next_occurrence "feb28" ⟨2025, 1, 1, 43200⟩
        RepeatInterval.DAY ⟨2025, 1, 3, 0⟩ := by
  decide

/-- The claim C3, amended: the reference instant is *not* caller-supplied —
the function reads the wall clock internally — but the computation is
deterministic in (anchor, rule, internal clock reading): it depends on the
clock reading only through the absolute instant it denotes, so two
invocations whose internal reads denote the same instant return identical
results. -/
theorem C3_deterministic_given_clock (p : String) (a : DT)
    (rule : RepeatInterval) (t1 t2 : DT) (h : toSec t1 = toSec t2) :
    calculate_next_occurrence p a rule t1 =
      calculate_next_occurrence p a rule t2 := by
  unfold calculate_next_occurrence
  rw [h]

/-- Witness for `C3_deterministic_given_clock`: two distinct field
representations denoting the same instant (the out-of-range "January 32" and
February 1) yield equal results. -/
theorem C3_deterministic_given_clock_witness :
    toSec ⟨2025, 1, 32, 0⟩ = toSec ⟨2025, 2, 1, 0⟩ ∧
    calculate_next_occurrence "feb28" ⟨2025, 1, 1, 43200⟩
        RepeatInterval.DAY ⟨2025, 1, 32, 0⟩ =
      calculate_next_occurrence "feb28" ⟨2025, 1, 1, 43200⟩
        RepeatInterval.DAY ⟨2025, 2, 1, 0⟩ :=
  ⟨by decide, C3_deterministic_given_clock "feb28" ⟨2025, 1, 1, 43200⟩
    RepeatInterval.DAY ⟨2025, 1, 32, 0⟩ ⟨2025, 2, 1, 0⟩ (by decide)⟩

/-- The claim C4: for a YEARLY rule with a February-29 anchor not after the
clock reading, every iterate of the loop body after the first lands on the
policy's substitution date — February 28 under "feb28" (the default; any
policy string other than "mar01" behaves as "feb28"), March 1 under
"mar01" — of successive years at the anchor's wall-clock time, and the
iteration continues from the substituted date: a later leap year keeps the
substituted month/day rather than restoring February 29.  The returned
occurrence is such an iterate. -/
theorem C4_leap_policy (p : String) (a now : DT) (hv : a.Valid)
    (hm : a.month = 2) (hd : a.day = 29) (hle : toSec a ≤ toSec now) :
    (∀ k, 1 ≤ k →
      (yearStep p true)^[k] a =
        ⟨a.year + k, if p = "mar01" then 3 else 2,
          if p = "mar01" then 1 else 28, a.sod⟩) ∧
    ∃ k, 1 ≤ k ∧
      calculate_next_occurrence p a RepeatInterval.YEAR now =
        some ⟨a.year + k, if p = "mar01" then 3 else 2,
          if p = "mar01" then 1 else 28, a.sod⟩ := by
  have hform := yearStep_feb29_iterate p a hv hm hd
  refine ⟨hform, ?_⟩
  obtain ⟨k, _, he, _, hgt, _⟩ :=
    calc_loop_char p a RepeatInterval.YEAR now hv (by decide) hle
  have hb : (a.month == 2 && a.day == 29) = true := by
    rw [hm, hd]
    rfl
  rw [show ruleStep p a RepeatInterval.YEAR = yearStep p true from by
    simp [ruleStep, hb]] at he hgt
  have hk1 : 1 ≤ k := by
    by_contra hk0
    have hk0' : k = 0 := by omega
    subst hk0'
    simp only [Function.iterate_zero, id_eq] at hgt
    omega
  rw [hform k hk1] at he
  exact ⟨k, hk1, he⟩

/-- Witness for `C4_leap_policy`: anchor 2024-02-29 12:00:00, clock reading
2025-06-01 00:00:00, policy "feb28". -/
theorem C4_leap_policy_witness :
    (⟨2024, 2, 29, 43200⟩ : DT).Valid ∧
    (∀ k, 1 ≤ k →
      (yearStep "feb28" true)^[k] ⟨2024, 2, 29, 43200⟩ =
        ⟨2024 + k, 2, 28, 43200⟩) ∧
    ∃ k, 1 ≤ k ∧
      calculate_next_occurrence "feb28" ⟨2024, 2, 29, 43200⟩
        RepeatInterval.YEAR ⟨2025, 6, 1, 0⟩ = some ⟨2024 + k, 2, 28, 43200⟩ := by
  have h := C4_leap_policy "feb28" ⟨2024, 2, 29, 43200⟩ ⟨2025, 6, 1, 0⟩
    (by decide) rfl rfl (by decide)
  exact ⟨by decide, by simpa using h.1, by simpa using h.2⟩

/-- The claim C5: for every recurring rule and every anchor not after the
clock reading, the returned occurrence is the first iterate of the rule's
step — starting from the anchor itself — that strictly exceeds the reading;
in particular it is strictly greater than it, never equal. -/
theorem C5_first_exceeding (p : String) (a : DT) (rule : RepeatInterval)
    (now : DT) (hv : a.Valid) (hr : rule ≠ RepeatInterval.NONE)
    (hle : toSec a ≤ toSec now) :
    ∃ k r, calculate_next_occurrence p a rule now = some r ∧
      r = (ruleStep p a rule)^[k] a ∧
      toSec now < toSec r ∧
      ∀ j < k, toSec ((ruleStep p a rule)^[j] a) ≤ toSec now := by
  obtain ⟨k, _, he, _, hgt, hall⟩ := calc_loop_char p a rule now hv hr hle
  exact ⟨k, _, he, rfl, hgt, hall⟩

/-- Witness for `C5_first_exceeding`: anchor 2025-01-01 12:00:00, DAILY,
clock reading 2025-01-03 00:00:00. -/
theorem C5_first_exceeding_witness :
    ∃ k r, calculate_next_occurrence "feb28" ⟨2025, 1, 1, 43200⟩
        RepeatInterval.DAY ⟨2025, 1, 3, 0⟩ = some r ∧
      r = (ruleStep "feb28" ⟨2025, 1, 1, 43200⟩ RepeatInterval.DAY)^[k]
        ⟨2025, 1, 1, 43200⟩ ∧
      toSec ⟨2025, 1, 3, 0⟩ < toSec r ∧
      ∀ j < k,
        toSec ((ruleStep "feb28" ⟨2025, 1, 1, 43200⟩ RepeatInterval.DAY)^[j]
          ⟨2025, 1, 1, 43200⟩) ≤ toSec ⟨2025, 1, 3, 0⟩ :=
  C5_first_exceeding "feb28" ⟨2025, 1, 1, 43200⟩ RepeatInterval.DAY
    ⟨2025, 1, 3, 0⟩ (by decide) (by decide) (by decide)

/-- The claim C6: for every recurring rule, an anchor strictly after the
clock reading is returned unchanged. -/
theorem C6_future_anchor (p : String) (a : DT) (rule : RepeatInterval)
    (now : DT) (hr : rule ≠ RepeatInterval.NONE)
    (hgt : toSec now < toSec a) :
    calculate_next_occurrence p a rule now = some a := by
  unfold calculate_next_occurrence
  rw [if_neg hr, if_pos hgt]

/-- Witness for `C6_future_anchor`: a 2025-12-31 anchor with the clock still
at 2025-01-01. -/
theorem C6_future_anchor_witness :
    calculate_next_occurrence "feb28" ⟨2025, 12, 31, 0⟩
      RepeatInterval.WEEK ⟨2025, 1, 1, 0⟩ = some ⟨2025, 12, 31, 0⟩ :=
  C6_future_anchor "feb28" ⟨2025, 12, 31, 0⟩ RepeatInterval.WEEK
    ⟨2025, 1, 1, 0⟩ (by decide) (by decide)

/-- The claim C7's no-raise clause fails on the code at the `datetime` range
boundary: the well-typed anchor 9996-02-29 12:00 UTC under YEARLY with the
clock at 9999-06-01 advances 9997-02-28, 9998-02-28, 9999-02-28 (all ≤ now),
then computes `next_year = 10000` with `isleap(10000)` true, and
`replace(year=10000)` raises `ValueError`; likewise a DAILY step past
9999-12-31 raises `OverflowError` from the `timedelta` addition. -/
theorem C7_counterexample :
    (⟨9996, 2, 29, 43200⟩ : DT).PyValid ∧
    (⟨9999, 6, 1, 0⟩ : DT).PyValid ∧
    calculate_next_occurrence_checked "feb28" ⟨9996, 2, 29, 43200⟩
        RepeatInterval.YEAR ⟨9999, 6, 1, 0⟩ = Except.error "ValueError" ∧
    (⟨9999, 12, 31, 43200⟩ : DT).PyValid ∧
    calculate_next_occurrence_checked "feb28" ⟨9999, 12, 31, 43200⟩
        RepeatInterval.DAY ⟨9999, 12, 31, 43200⟩ =
      Except.error "OverflowError" := by
  refine ⟨by decide, by decide, by rfl, by decide, by rfl⟩

/-- The claim C7, amended: `NONE` is the only `None`-returning path — in the
total model and in the range-checked model alike — so the trailing fallback
for an unmatched rule is unreachable (the rule enumeration is closed); but
the no-raise clause holds only within `datetime`'s year range: whenever the
checked computation returns, it agrees with the total model, and it raises —
`OverflowError` from the DAY/WEEK `timedelta` additions, `ValueError` from
the MONTH/YEAR `relativedelta`/`replace`/constructor calls — exactly by
reaching an iterate not after the clock reading whose successor would cross
`MAXYEAR = 9999`. -/
theorem C7_range_semantics (p : String) (a : DT) (rule : RepeatInterval)
    (now : DT) :
    (calculate_next_occurrence p a rule now = none ↔
      rule = RepeatInterval.NONE) ∧
    (calculate_next_occurrence_checked p a rule now = Except.ok none ↔
      rule = RepeatInterval.NONE) ∧
    (∀ r, calculate_next_occurrence_checked p a rule now =
        Except.ok (some r) →
      calculate_next_occurrence p a rule now = some r) ∧
    (∀ e, calculate_next_occurrence_checked p a rule now = Except.error e →
      (e = "OverflowError" ∨ e = "ValueError") ∧
      ∃ j, toSec ((ruleStep p a rule)^[j] a) ≤ toSec now ∧
        MAXYEAR < ((ruleStep p a rule)^[j + 1] a).year) := by
  by_cases hr : rule = RepeatInterval.NONE
  · subst hr
    refine ⟨by simp [calculate_next_occurrence], ?_, ?_, ?_⟩
    · simp [calculate_next_occurrence_checked]
    · intro r h
      simp [calculate_next_occurrence_checked] at h
    · intro e h
      simp [calculate_next_occurrence_checked] at h
  · by_cases hnl : toSec now < toSec a
    · refine ⟨?_, ?_, ?_, ?_⟩
      · unfold calculate_next_occurrence
        rw [if_neg hr, if_pos hnl]
        simp [hr]
      · unfold calculate_next_occurrence_checked
        rw [if_neg hr, if_pos hnl]
        simp [hr]
      · intro r h
        unfold calculate_next_occurrence_checked at h
        rw [if_neg hr, if_pos hnl] at h
        simp only [Except.ok.injEq, Option.some.injEq] at h
        unfold calculate_next_occurrence
        rw [if_neg hr, if_pos hnl, h]
      · intro e h
        unfold calculate_next_occurrence_checked at h
        rw [if_neg hr, if_pos hnl] at h
        simp at h
    · obtain ⟨hck, htot⟩ := checked_branch p a rule now hr hnl
      refine ⟨?_, ?_, ?_, ?_⟩
      · rw [htot]
        simp [hr]
      · rw [hck]
        cases hres : advanceLoopChecked
            (if rule = RepeatInterval.MONTH ∨ rule = RepeatInterval.YEAR then
              "ValueError" else "OverflowError")
            (ruleStep p a rule) (toSec now) (toSec now + 1 - toSec a) a <;>
          simp [Except.map, hr]
      · intro r h
        rw [hck] at h
        rw [htot]
        cases hres : advanceLoopChecked
            (if rule = RepeatInterval.MONTH ∨ rule = RepeatInterval.YEAR then
              "ValueError" else "OverflowError")
            (ruleStep p a rule) (toSec now) (toSec now + 1 - toSec a) a with
        | error e =>
          rw [hres] at h
          simp [Except.map] at h
        | ok d =>
          rw [hres] at h
          simp only [Except.map, Except.ok.injEq, Option.some.injEq] at h
          rw [advanceLoopChecked_ok _ _ _ _ _ _ hres, h]
      · intro e h
        rw [hck] at h
        cases hres : advanceLoopChecked
            (if rule = RepeatInterval.MONTH ∨ rule = RepeatInterval.YEAR then
              "ValueError" else "OverflowError")
            (ruleStep p a rule) (toSec now) (toSec now + 1 - toSec a) a with
        | ok d =>
          rw [hres] at h
          simp [Except.map] at h
        | error e2 =>
          rw [hres] at h
          simp only [Except.map, Except.error.injEq] at h
          obtain ⟨he, j, hj1, hj2⟩ := advanceLoopChecked_error _ _ _ _ _ _ hres
          subst h
          refine ⟨?_, j, hj1, hj2⟩
          rw [he]
          split_ifs <;> simp

/-- Witness for `C7_range_semantics`: the no-raise agreement exercised at a
DAILY call well inside the range, and the raise characterisation at the
DAILY overflow input of `C7_counterexample`. -/
theorem C7_range_semantics_witness :
    calculate_next_occurrence "feb28" ⟨2025, 1, 1, 43200⟩
        RepeatInterval.DAY ⟨2025, 1, 3, 0⟩ = some ⟨2025, 1, 3, 43200⟩ ∧
    (("OverflowError" = "OverflowError" ∨ "OverflowError" = "ValueError") ∧
      ∃ j, toSec ((ruleStep "feb28" ⟨9999, 12, 31, 43200⟩
          RepeatInterval.DAY)^[j] ⟨9999, 12, 31, 43200⟩) ≤
            toSec ⟨9999, 12, 31, 43200⟩ ∧
        MAXYEAR < ((ruleStep "feb28" ⟨9999, 12, 31, 43200⟩
          RepeatInterval.DAY)^[j + 1] ⟨9999, 12, 31, 43200⟩).year) :=
  ⟨(C7_range_semantics "feb28" ⟨2025, 1, 1, 43200⟩ RepeatInterval.DAY
      ⟨2025, 1, 3, 0⟩).2.2.1 ⟨2025, 1, 3, 43200⟩ (by rfl),
   (C7_range_semantics "feb28" ⟨9999, 12, 31, 43200⟩ RepeatInterval.DAY
      ⟨9999, 12, 31, 43200⟩).2.2.2 "OverflowError" (by rfl)⟩

/-- The claim C8: the advancing loop terminates — every application of the
rule's step to a valid datetime strictly increases absolute time (the YEAR
branch increments the year even through the Feb-29 substitution), so for an
anchor not after the clock reading the function returns some iterate of the
step after at most `toSec now + 1 - toSec a` iterations. -/
theorem C8_loop_terminates (p : String) (a : DT) (rule : RepeatInterval)
    (now : DT) (hv : a.Valid) (hr : rule ≠ RepeatInterval.NONE) :
    (∀ d : DT, d.Valid → toSec d < toSec (ruleStep p a rule d)) ∧
    (toSec a ≤ toSec now →
      ∃ k, k ≤ toSec now + 1 - toSec a ∧
        calculate_next_occurrence p a rule now =
          some ((ruleStep p a rule)^[k] a)) := by
  refine ⟨fun d hd => (ruleStep_spec p a rule hr d hd).2, fun hle => ?_⟩
  obtain ⟨k, hk, he, _⟩ := calc_loop_char p a rule now hv hr hle
  exact ⟨k, hk, he⟩

/-- Witness for `C8_loop_terminates`: anchor 2024-02-29 12:00:00 under
YEARLY, clock reading 2026-01-01 00:00:00. -/
theorem C8_loop_terminates_witness :
    (∀ d : DT, d.Valid →
      toSec d <
        toSec (ruleStep "feb28" ⟨2024, 2, 29, 43200⟩ RepeatInterval.YEAR d)) ∧
    (toSec ⟨2024, 2, 29, 43200⟩ ≤ toSec ⟨2026, 1, 1, 0⟩ →
      ∃ k, k ≤ toSec ⟨2026, 1, 1, 0⟩ + 1 - toSec ⟨2024, 2, 29, 43200⟩ ∧
        calculate_next_occurrence "feb28" ⟨2024, 2, 29, 43200⟩
            RepeatInterval.YEAR ⟨2026, 1, 1, 0⟩ =
          some ((ruleStep "feb28" ⟨2024, 2, 29, 43200⟩
            RepeatInterval.YEAR)^[k] ⟨2024, 2, 29, 43200⟩)) :=
  C8_loop_terminates "feb28" ⟨2024, 2, 29, 43200⟩ RepeatInterval.YEAR
    ⟨2026, 1, 1, 0⟩ (by decide) (by decide)

/-- The claim C9: `sort_events_by_remaining_time` returns a permutation of
its input ordered ascending by `remaining_seconds`, and the sort is stable:
the elements carrying any fixed `remaining_seconds` value appear in exactly
their input order (so three tied events come out in input order); overdue
(negative-remaining) events are not specially repositioned — by the
ascending order they simply sort before the non-negative ones. -/
theorem C9_stable_sort (l : List Enriched) :
    (sort_events_by_remaining_time l).Perm l ∧
    (sort_events_by_remaining_time l).Pairwise
      (fun a b => a.remaining_seconds ≤ b.remaining_seconds) ∧
    ∀ v : Int,
      (sort_events_by_remaining_time l).filter
          (fun e => decide (e.remaining_seconds = v)) =
        l.filter (fun e => decide (e.remaining_seconds = v)) := by
  unfold sort_events_by_remaining_time
  have htrans : ∀ a b c : Enriched,
      (fun a b : Enriched => decide (a.remaining_seconds ≤ b.remaining_seconds)) a b →
      (fun a b : Enriched => decide (a.remaining_seconds ≤ b.remaining_seconds)) b c →
      (fun a b : Enriched => decide (a.remaining_seconds ≤ b.remaining_seconds)) a c := by
    intro a b c h1 h2
    simp only [decide_eq_true_eq] at h1 h2 ⊢
    omega
  have htotal : ∀ a b : Enriched,
      ((fun a b : Enriched => decide (a.remaining_seconds ≤ b.remaining_seconds)) a b ||
       (fun a b : Enriched => decide (a.remaining_seconds ≤ b.remaining_seconds)) b a) := by
    intro a b
    simp only [Bool.or_eq_true, decide_eq_true_eq]
    omega
  refine ⟨List.mergeSort_perm l _, ?_, ?_⟩
  · exact (List.sorted_mergeSort htrans htotal l).imp
      (fun hab => by simpa using hab)
  · intro v
    have hself : (l.filter (fun e => decide (e.remaining_seconds = v))).filter
        (fun e => decide (e.remaining_seconds = v)) =
        l.filter (fun e => decide (e.remaining_seconds = v)) := by
      apply List.filter_eq_self.mpr
      intro a ha
      exact (List.mem_filter.mp ha).2
    have hsub : List.Sublist
        (l.filter (fun e => decide (e.remaining_seconds = v)))
        (List.mergeSort l
          (fun a b => decide (a.remaining_seconds ≤ b.remaining_seconds))) := by
      apply List.sublist_mergeSort htrans htotal
      · apply List.pairwise_of_forall_mem_list
        intro a ha b hb
        have ha' := (List.mem_filter.mp ha).2
        have hb' := (List.mem_filter.mp hb).2
        simp only [decide_eq_true_eq] at ha' hb' ⊢
        omega
      · exact List.filter_sublist l
    have hsub2 := hsub.filter (fun e => decide (e.remaining_seconds = v))
    rw [hself] at hsub2
    have hlen : ((List.mergeSort l
        (fun a b => decide (a.remaining_seconds ≤ b.remaining_seconds))).filter
          (fun e => decide (e.remaining_seconds = v))).length =
        (l.filter (fun e => decide (e.remaining_seconds = v))).length := by
      rw [← List.countP_eq_length_filter, ← List.countP_eq_length_filter]
      exact (List.mergeSort_perm l _).countP_eq _
    exact (hsub2.eq_of_length hlen.symm).symm

/-- The claim C10: every dict produced by `enrich_event` is coherent —
`is_overdue` holds exactly when `remaining_seconds` is negative, and
`color_bucket` is absent exactly when `is_overdue` holds (an event with zero
remaining seconds is upcoming with bucket RED, never overdue) — and
consequently `filter_overdue`, which partitions on the `is_overdue` flag,
puts an enriched event in the overdue partition exactly when its
`color_bucket` is absent, each input element landing in exactly one
partition with relative order preserved. -/
theorem C10_enrich_partition (p : String) (server_now clock_now : DT) :
    (∀ ev : Event,
      ((enrich_event p ev server_now clock_now).is_overdue = true ↔
        (enrich_event p ev server_now clock_now).remaining_seconds < 0) ∧
      ((enrich_event p ev server_now clock_now).color_bucket = none ↔
        (enrich_event p ev server_now clock_now).is_overdue = true) ∧
      ((enrich_event p ev server_now clock_now).remaining_seconds = 0 →
        (enrich_event p ev server_now clock_now).is_overdue = false ∧
        (enrich_event p ev server_now clock_now).color_bucket =
          some ColorBucket.RED)) ∧
    ∀ events : List Event,
      (filter_overdue (events.map
          (fun ev => enrich_event p ev server_now clock_now))).1 =
        (events.map (fun ev => enrich_event p ev server_now clock_now)).filter
          (fun e => !decide (e.color_bucket = none)) ∧
      (filter_overdue (events.map
          (fun ev => enrich_event p ev server_now clock_now))).2 =
        (events.map (fun ev => enrich_event p ev server_now clock_now)).filter
          (fun e => decide (e.color_bucket = none)) ∧
      (filter_overdue (events.map
          (fun ev => enrich_event p ev server_now clock_now))).1.length +
        (filter_overdue (events.map
          (fun ev => enrich_event p ev server_now clock_now))).2.length =
        (events.map (fun ev => enrich_event p ev server_now clock_now)).length := by
  have hio : ∀ ev : Event,
      (enrich_event p ev server_now clock_now).is_overdue =
        decide ((enrich_event p ev server_now clock_now).remaining_seconds < 0) :=
    fun ev => rfl
  have hcb : ∀ ev : Event,
      (enrich_event p ev server_now clock_now).color_bucket =
        get_color_bucket
          ((enrich_event p ev server_now clock_now).remaining_seconds) :=
    fun ev => rfl
  refine ⟨fun ev => ⟨?_, ?_, ?_⟩, fun events => ⟨?_, ?_, ?_⟩⟩
  · rw [hio ev]
    exact decide_eq_true_iff
  · rw [hio ev, hcb ev, gcb_none_iff, decide_eq_true_iff]
  · intro h0
    rw [hio ev, hcb ev, h0]
    exact ⟨by decide, by decide⟩
  · apply List.filter_congr
    intro x hx
    obtain ⟨ev, _, rfl⟩ := List.mem_map.mp hx
    rw [hio ev, hcb ev]
    congr 1
    rw [decide_eq_decide]
    exact (gcb_none_iff _).symm
  · apply List.filter_congr
    intro x hx
    obtain ⟨ev, _, rfl⟩ := List.mem_map.mp hx
    rw [hio ev, hcb ev]
    rw [decide_eq_decide]
    exact (gcb_none_iff _).symm
  · exact length_filter_bool _ (fun e => e.is_overdue)
